import Mathlib

/-!
Shallow embedding of the notification orchestrator core
(apps/notifications/services/template_service.py, orchestration_engine.py,
dispatch_service.py, apps/notifications/tasks.py and the models they use),
together with proofs about its template rendering, channel resolution,
validation, dispatch/retry and fallback behaviour.

Strings are embedded as `List Char`.  Python `None`/empty-string contact
fields are both falsy at every call site of the embedded code, so optional
address fields are embedded as `List Char` with `[]` for "missing or empty".
-/

set_option autoImplicit false

/-- Model of `unicodedata.normalize('NFD', ·)` followed by dropping combining
marks (category Mn), per character, for the Latin repertoire the system uses
(Spanish/Portuguese/French precomposed letters).  Characters outside this
repertoire decompose to themselves. -/
def nfdStripMark (c : Char) : Char :=
  match c with
  | 'á' | 'à' | 'ä' | 'â' | 'ã' => 'a'
  | 'é' | 'è' | 'ë' | 'ê' => 'e'
  | 'í' | 'ì' | 'ï' | 'î' => 'i'
  | 'ó' | 'ò' | 'ö' | 'ô' | 'õ' => 'o'
  | 'ú' | 'ù' | 'ü' | 'û' => 'u'
  | 'ñ' => 'n'
  | 'ç' => 'c'
  | 'Á' | 'À' | 'Ä' | 'Â' | 'Ã' => 'A'
  | 'É' | 'È' | 'Ë' | 'Ê' => 'E'
  | 'Í' | 'Ì' | 'Ï' | 'Î' => 'I'
  | 'Ó' | 'Ò' | 'Ö' | 'Ô' | 'Õ' => 'O'
  | 'Ú' | 'Ù' | 'Ü' | 'Û' => 'U'
  | 'Ñ' => 'N'
  | 'Ç' => 'C'
  | c => c

namespace TemplateService

/-- `TemplateService._normalize`: NFD decomposition, strip combining marks,
lowercase.  After mark stripping the repertoire is ASCII, where
`Char.toLower` agrees with Python `str.lower`. -/
def normalize (text : List Char) : List Char :=
  text.map (fun c => (nfdStripMark c).toLower)

/-- One unit of the output of matching `VARIABLE_PATTERN` over a template
body: either a character that is not part of any placeholder match, or a
matched placeholder's captured variable name. -/
inductive Tok where
  | lit : Char → Tok
  | var : List Char → Tok
deriving DecidableEq

/-- Character class `[^\{\}\s]` of `VARIABLE_PATTERN`. -/
def isVarChar (c : Char) : Bool :=
  !(c == '{') && !(c == '}') && !c.isWhitespace

/-- Left-to-right, leftmost, non-overlapping matching of
`VARIABLE_PATTERN = \{\{([^\{\}\s]+)\}\}` (as `re.sub`/`re.findall` scan):
at each position, `{{` followed by the maximal nonempty run of
non-brace non-whitespace characters followed by `}}` is a match; otherwise
the scan advances one character.  Fuel-indexed for structural recursion;
`tokenize` supplies sufficient fuel. -/
def tokenizeF : Nat → List Char → List Tok
  | 0, _ => []
  | _ + 1, [] => []
  | _ + 1, [c1] => [Tok.lit c1]
  | fuel + 1, c1 :: c2 :: rest =>
    if c1 = '{' ∧ c2 = '{' then
      let run := rest.takeWhile isVarChar
      let rest2 := rest.dropWhile isVarChar
      if run ≠ [] ∧ rest2.take 2 = ['}', '}'] then
        Tok.var run :: tokenizeF fuel (rest2.drop 2)
      else
        Tok.lit c1 :: tokenizeF fuel (c2 :: rest)
    else
      Tok.lit c1 :: tokenizeF fuel (c2 :: rest)

def tokenize (s : List Char) : List Tok :=
  tokenizeF s.length s

/-- Python `dict` built from an item sequence (later duplicate keys
overwrite earlier ones) queried by key: the last binding wins. -/
def lookupLast {α : Type} : List (List Char × α) → List Char → Option α
  | [], _ => none
  | p :: rest, k =>
    match lookupLast rest k with
    | some v => some v
    | none => if p.1 = k then some p.2 else none

/-- `context_normalized = {self._normalize(k): v for k, v in context.items()}`. -/
def normCtx (context : List (List Char × List Char)) : List (List Char × List Char) :=
  context.map (fun p => (normalize p.1, p.2))

/-- `TemplateService.render`: substitute every matched placeholder whose
normalized name is a normalized context key by that key's value, keep the
original matched text (`match.group(0)`) otherwise. -/
def render (template_body : List Char) (context : List (List Char × List Char)) : List Char :=
  let context_normalized := normCtx context
  (tokenize template_body).flatMap fun t =>
    match t with
    | Tok.lit c => [c]
    | Tok.var name =>
      match lookupLast context_normalized (normalize name) with
      | some v => v
      | none => '{' :: '{' :: (name ++ ['}', '}'])

/-- `TemplateService.get_variables`: `list(set(VARIABLE_PATTERN.findall(body)))`,
the distinct captured variable names (original casing). -/
def get_variables (template_body : List Char) : List (List Char) :=
  ((tokenize template_body).filterMap fun t =>
    match t with
    | Tok.var name => some name
    | Tok.lit _ => none).dedup

end TemplateService

/-- `apps.core.constants.NotificationChannel`. -/
inductive NotificationChannel where
  | email
  | push
  | whatsapp
deriving DecidableEq

/-- `apps.core.constants.NotificationStatus`. -/
inductive NotificationStatus where
  | pending
  | queued
  | sent
  | delivered
  | read
  | bounced
  | failed
deriving DecidableEq

/-- `CustomerContactInfo` (models/customers.py): contact addresses per
channel; `[]` embeds blank/NULL address fields (both falsy in the source). -/
structure CustomerContactInfo where
  customer_id : List Char
  first_name : List Char
  last_name : List Char
  email : List Char
  phone : List Char
  whatsapp : List Char
deriving DecidableEq

namespace CustomerContactInfo

/-- `CustomerContactInfo.full_name`. -/
def full_name (c : CustomerContactInfo) : List Char :=
  c.first_name ++ ' ' :: c.last_name

/-- `CustomerContactInfo.get_recipient_for_channel`: email address for
email, `whatsapp or phone` for whatsapp, and the customer id for push. -/
def get_recipient_for_channel (c : CustomerContactInfo) : NotificationChannel → List Char
  | NotificationChannel.email => c.email
  | NotificationChannel.whatsapp => if c.whatsapp ≠ [] then c.whatsapp else c.phone
  | NotificationChannel.push => c.customer_id

end CustomerContactInfo

/-- `Template` (models/templates.py): the fields the engine reads. -/
structure Template where
  subject : Option (List Char)
  body : List Char
deriving DecidableEq

/-- `PhaseChannelConfig` (models/orchestration.py): one (phase, channel)
entry of an orchestration config, with enablement flag and optional
template. -/
structure PhaseChannelConfig where
  channel : NotificationChannel
  enabled : Bool
  template : Option Template
deriving DecidableEq

/-- `CustomerChannelPreference` restricted to the fields the resolver
reads; the preference list handed to the resolver is pre-filtered to
`enabled=True` rows ordered by ascending `priority`
(`_get_customer_preferences`). -/
structure CustomerChannelPreference where
  channel : NotificationChannel
  priority : Nat
deriving DecidableEq

namespace OrchestrationEngine

/-- `OrchestrationEngine._normalize`: same computation as
`TemplateService._normalize` (the source duplicates the function). -/
def normalize (text : List Char) : List Char :=
  text.map (fun c => (nfdStripMark c).toLower)

/-- `_enrich_context_minimal`: inject the customer's display name under
the key `Nombre` only when no context key normalizes to `nombre`; the
merged dict keeps caller-supplied entries binding over the injected one. -/
def _enrich_context_minimal (context : List (List Char × List Char))
    (customer : CustomerContactInfo) : List (List Char × List Char) :=
  let normalized_keys := context.map (fun p => normalize p.1)
  if "nombre".data ∈ normalized_keys then context
  else ("Nombre".data, customer.full_name) :: context

/-- Union of all variables referenced by the candidate templates' bodies
and subjects (`all_required_variables` in `_validate_template_variables`);
a Python `set`, embedded as a deduplicated list. -/
def all_required_variables (enabled_channels : List PhaseChannelConfig) : List (List Char) :=
  (enabled_channels.flatMap fun pc =>
    match pc.template with
    | none => []
    | some t =>
      TemplateService.get_variables t.body ++
        match t.subject with
        | some s => TemplateService.get_variables s
        | none => []).dedup

/-- Result dict of `_validate_template_variables`. -/
structure ValidationResult where
  valid : Bool
  missing_variables : List (List Char)
deriving DecidableEq

/-- `_validate_template_variables`: normalize the required variables and
the context keys, and report the normalized required variables absent from
the normalized context keys.  (The source sorts `missing_variables`; the
claims are about its membership, which sorting preserves.) -/
def _validate_template_variables (enabled_channels : List PhaseChannelConfig)
    (enriched_context : List (List Char × List Char)) : ValidationResult :=
  let normalized_required := ((all_required_variables enabled_channels).map normalize).dedup
  let normalized_context_keys := (enriched_context.map (fun p => normalize p.1)).dedup
  let missing_variables := normalized_required.filter
    (fun v => decide (v ∉ normalized_context_keys))
  ⟨missing_variables.isEmpty, missing_variables⟩

/-- Python dict insertion (`{c.channel: c for c in enabled_configs}`):
an existing key keeps its position and takes the new value, a new key is
appended. -/
def dictInsert (m : List (NotificationChannel × PhaseChannelConfig))
    (k : NotificationChannel) (v : PhaseChannelConfig) :
    List (NotificationChannel × PhaseChannelConfig) :=
  if k ∈ m.map Prod.fst then m.map (fun p => if p.1 = k then (k, v) else p)
  else m ++ [(k, v)]

/-- `enabled_channel_map = {c.channel: c for c in enabled_configs}`. -/
def buildChannelMap (enabled_configs : List PhaseChannelConfig) :
    List (NotificationChannel × PhaseChannelConfig) :=
  enabled_configs.foldl (fun m c => dictInsert m c.channel c) []

/-- Dict key lookup on the embedded channel map (keys are unique by
construction, so first match is the binding). -/
def dictFind (m : List (NotificationChannel × PhaseChannelConfig))
    (k : NotificationChannel) : Option PhaseChannelConfig :=
  (m.find? (fun p => p.1 == k)).map Prod.snd

/-- First loop of `_resolve_channels`: walk the preferences in order;
for each whose channel is configured, not yet used, and has a nonempty
recipient, append `(config, recipient)` and mark the channel used.
Returns the appended entries and the final `used_channels`. -/
def resolveStep1 (m : List (NotificationChannel × PhaseChannelConfig))
    (customer : CustomerContactInfo) :
    List CustomerChannelPreference → List NotificationChannel →
    List (PhaseChannelConfig × List Char) × List NotificationChannel
  | [], used => ([], used)
  | pref :: rest, used =>
    match dictFind m pref.channel with
    | some config =>
      if pref.channel ∈ used then resolveStep1 m customer rest used
      else
        let recipient := customer.get_recipient_for_channel pref.channel
        if recipient ≠ [] then
          let r := resolveStep1 m customer rest (pref.channel :: used)
          ((config, recipient) :: r.1, r.2)
        else resolveStep1 m customer rest used
    | none => resolveStep1 m customer rest used

/-- Second loop of `_resolve_channels`: walk the channel map; append every
entry whose channel is not used, not explicitly disabled by the customer,
and has a nonempty recipient. -/
def resolveStep2 (customer : CustomerContactInfo)
    (disabled_channels : List NotificationChannel) :
    List (NotificationChannel × PhaseChannelConfig) → List NotificationChannel →
    List (PhaseChannelConfig × List Char)
  | [], _ => []
  | (channel, config) :: rest, used =>
    if channel ∉ used ∧ channel ∉ disabled_channels then
      let recipient := customer.get_recipient_for_channel channel
      if recipient ≠ [] then
        (config, recipient) :: resolveStep2 customer disabled_channels rest (channel :: used)
      else resolveStep2 customer disabled_channels rest used
    else resolveStep2 customer disabled_channels rest used

/-- `OrchestrationEngine._resolve_channels`. -/
def _resolve_channels (enabled_configs : List PhaseChannelConfig)
    (preferences : List CustomerChannelPreference)
    (customer : CustomerContactInfo)
    (disabled_channels : List NotificationChannel) :
    List (PhaseChannelConfig × List Char) :=
  let m := buildChannelMap enabled_configs
  let s1 := resolveStep1 m customer preferences []
  s1.1 ++ resolveStep2 customer disabled_channels m s1.2

end OrchestrationEngine

namespace DispatchService

/-- `NOTIFICATION_SETTINGS["FALLBACK_DELAY_SECONDS"]` default. -/
def fallback_delay_seconds : Nat := 600

/-- The notification record `schedule_fallback` hands to
`queue_notification`, restricted to the fields the fallback claims read.
Record ids (`NotificationLog.id`, a `uuid4` assigned already to unsaved
instances) are embedded as `Nat`; freshness of generated ids is embedded by
an explicit supply counter. -/
structure FallbackRecord where
  channel : NotificationChannel
  recipient : List Char
  parent_log_id : Nat
  countdown : Nat
deriving DecidableEq

/-- `DispatchService.schedule_fallback`: locate the failed channel in the
priority order, take the next channel; stop if there is none; resolve the
recipient; when empty, recurse through a freshly constructed unsaved mock
record carrying the next channel (the mock's `uuid4` id is drawn from the
`fresh` supply and becomes the `failed_log.id` of the recursive call);
otherwise queue the fallback with `parent_log_id = str(failed_log.id)` and
`countdown = fallback_delay_seconds`.  Fuel-indexed: the source recursion
is unbounded (it does not terminate on duplicate-channel priority lists
with no resolvable recipient); `schedule_fallback` supplies fuel covering
every list that the system attaches to records, which are duplicate-free. -/
def schedule_fallbackF (customer : Option CustomerContactInfo)
    (priority_order : List NotificationChannel) :
    Nat → NotificationChannel → Nat → Nat → Option FallbackRecord
  | 0, _, _, _ => none
  | fuel + 1, channel, failed_log_id, fresh =>
    match priority_order.findIdx? (fun c => c == channel) with
    | none => none
    | some current_index =>
      if current_index ≥ priority_order.length - 1 then none
      else
        match priority_order.get? (current_index + 1) with
        | none => none
        | some next_channel =>
          match customer with
          | none => none
          | some cust =>
            let recipient := cust.get_recipient_for_channel next_channel
            if recipient = [] then
              schedule_fallbackF customer priority_order fuel next_channel fresh (fresh + 1)
            else
              some ⟨next_channel, recipient, failed_log_id, fallback_delay_seconds⟩

/-- Entry point of the embedded `schedule_fallback`, applied to the failed
record's channel and id. -/
def schedule_fallback (customer : Option CustomerContactInfo)
    (priority_order : List NotificationChannel)
    (failed_channel : NotificationChannel) (failed_log_id : Nat) (fresh : Nat) :
    Option FallbackRecord :=
  schedule_fallbackF customer priority_order (priority_order.length + 1)
    failed_channel failed_log_id fresh

end DispatchService

/-- The mutable `NotificationLog` state that `send_notification_task`
reads and writes.  `next_retry_delay` embeds `next_retry_at` as seconds
from the current instant (`timezone.now() + timedelta(seconds=d)`);
`sent_marked` embeds `sent_at` being stamped by `mark_sent`. -/
structure LogState where
  channel : NotificationChannel
  status : NotificationStatus
  retry_count : Nat
  max_retries : Nat
  next_retry_delay : Option Nat
  error_code : Option (List Char)
  sent_marked : Bool
deriving DecidableEq

/-- Adapter send result (`NotificationResult` of the gateway port),
restricted to the fields the task reads. -/
structure SendResult where
  success : Bool
  error_code : Option (List Char)
deriving DecidableEq

/-- External collaborators of one `send_notification_task` execution:
the adapter registry and configuration state, the adapter's result if a
send is attempted, and the data `schedule_fallback` would read. -/
structure TaskEnv where
  adapter_known : Bool
  adapter_configured : Bool
  send_result : SendResult
  customer : Option CustomerContactInfo
  priority_order : List NotificationChannel
  log_id : Nat
  fresh : Nat
deriving DecidableEq

/-- Which branch of `send_notification_task` ran. -/
inductive TaskOutcome where
  | skipped
  | unknownChannel
  | notConfigured
  | sentOk
  | retryScheduled : Nat → TaskOutcome
  | failedWithFallback : Option DispatchService.FallbackRecord → TaskOutcome
deriving DecidableEq

/-- Result of one task execution: the record state after it, whether
`adapter.send` was invoked, and the branch taken. -/
structure TaskResult where
  log : LogState
  send_attempted : Bool
  outcome : TaskOutcome
deriving DecidableEq

/-- Channel name uppercased, for the `f"{log.channel.upper()}_NOT_CONFIGURED"`
error code. -/
def channelUpper : NotificationChannel → List Char
  | NotificationChannel.email => "EMAIL".data
  | NotificationChannel.push => "PUSH".data
  | NotificationChannel.whatsapp => "WHATSAPP".data

/-- `send_notification_task` (tasks.py): skip records already sent or
delivered; fail fast on unknown or unconfigured channel; otherwise send
once through the adapter; on success `mark_sent`; on failure increment
`retry_count`, record the error, and either transition to failed and call
`dispatch_service.schedule_fallback` (when `retry_count` reached
`max_retries`) or schedule a retry after `60 * 2 ** (retry_count - 1)`
seconds. -/
def send_notification_task (env : TaskEnv) (log : LogState) : TaskResult :=
  if log.status = NotificationStatus.sent ∨ log.status = NotificationStatus.delivered then
    ⟨log, false, TaskOutcome.skipped⟩
  else if ¬ env.adapter_known then
    ⟨{ log with
        status := NotificationStatus.failed
        error_code := some "UNKNOWN_CHANNEL".data }, false, TaskOutcome.unknownChannel⟩
  else if ¬ env.adapter_configured then
    ⟨{ log with
        status := NotificationStatus.failed
        error_code := some (channelUpper log.channel ++ "_NOT_CONFIGURED".data) },
     false, TaskOutcome.notConfigured⟩
  else if env.send_result.success then
    ⟨{ log with status := NotificationStatus.sent, sent_marked := true },
     true, TaskOutcome.sentOk⟩
  else
    let log1 := { log with
                   retry_count := log.retry_count + 1
                   error_code := env.send_result.error_code }
    if log1.retry_count ≥ log1.max_retries then
      ⟨{ log1 with status := NotificationStatus.failed }, true,
       TaskOutcome.failedWithFallback
         (DispatchService.schedule_fallback env.customer env.priority_order
           log.channel env.log_id env.fresh)⟩
    else
      let retry_delay := 60 * 2 ^ (log1.retry_count - 1)
      ⟨{ log1 with next_retry_delay := some retry_delay }, true,
       TaskOutcome.retryScheduled retry_delay⟩

namespace OrchestrationEngine

/-- The notification handed to `dispatch_service.queue_notification` by
`process_event`, restricted to the fields the claims read. -/
structure QueuedNotification where
  channel : NotificationChannel
  recipient : List Char
  subject : Option (List Char)
  body : List Char
deriving DecidableEq

/-- The error strings `process_event` can put in `OrchestrationResult.errors`,
embedded as tagged values; `missingVariables` carries the
`missing_variables` list joined into the message text by the source. -/
inductive OrchError where
  | configNotFound
  | noChannelsEnabled
  | customerNotFound
  | missingVariables : List (List Char) → OrchError
  | noValidChannels
  | customMissingSubjectBody
  | noCustomContact
deriving DecidableEq

/-- `OrchestrationResult`, with the sequence of
`dispatch_service.queue_notification` calls the run performed appended as
`queued_calls` (the side-effect trace; not a field of the source dataclass). -/
structure OrchestrationResult where
  success : Bool
  notifications_queued : Nat
  errors : List OrchError
  queued_calls : List QueuedNotification
deriving DecidableEq

/-- `EventPayload` restricted to the fields the embedded control flow
reads directly; the identifiers (`service_type_id`, `phase_id`,
`customer_id`, `taller_id`) only drive the database lookups whose results
`Env` carries. -/
structure EventPayload where
  event_type : List Char
  context : List (List Char × List Char)
deriving DecidableEq

/-- Results of the database lookups `process_event` performs:
`_find_orchestration_config`, `_get_phase_configs`, `_get_customer`
(after the auto-create attempt), `_get_customer_preferences` (enabled,
ascending priority), and the customer's explicitly disabled channels. -/
structure Env where
  config_found : Bool
  phase_configs : List PhaseChannelConfig
  customer : Option CustomerContactInfo
  preferences : List CustomerChannelPreference
  disabled_channels : List NotificationChannel
deriving DecidableEq

/-- `_process_custom_event`: require literal `subject` and `body` context
keys, resolve the customer, enrich, render subject and body against the
enriched context, queue for email and whatsapp wherever a recipient
resolves, and fail when nothing was queued. -/
def _process_custom_event (env : Env) (payload : EventPayload) : OrchestrationResult :=
  if ¬ ("subject".data ∈ payload.context.map Prod.fst ∧
        "body".data ∈ payload.context.map Prod.fst) then
    ⟨false, 0, [OrchError.customMissingSubjectBody], []⟩
  else
    match env.customer with
    | none => ⟨false, 0, [OrchError.customerNotFound], []⟩
    | some customer =>
      let enriched_context := _enrich_context_minimal payload.context customer
      let subject := (TemplateService.lookupLast enriched_context "subject".data).getD []
      let body := (TemplateService.lookupLast enriched_context "body".data).getD []
      let rendered_subject := TemplateService.render subject enriched_context
      let rendered_body := TemplateService.render body enriched_context
      let custom_channels := [NotificationChannel.email, NotificationChannel.whatsapp]
      let queued := custom_channels.filterMap fun channel =>
        let recipient := customer.get_recipient_for_channel channel
        if recipient ≠ [] then
          some (⟨channel, recipient, some rendered_subject, rendered_body⟩ : QueuedNotification)
        else none
      if queued.length = 0 then
        ⟨false, 0, [OrchError.noCustomContact], []⟩
      else
        ⟨true, queued.length, [], queued⟩

/-- `process_event`: the deterministic decision pipeline.  Rendering and
queueing are pure in the embedding, so the per-channel `try/except` of
step 6 collects no errors. -/
def process_event (env : Env) (payload : EventPayload) : OrchestrationResult :=
  if payload.event_type = "custom".data then
    _process_custom_event env payload
  else if ¬ env.config_found then
    ⟨false, 0, [OrchError.configNotFound], []⟩
  else
    let enabled_channels := env.phase_configs.filter fun pc => pc.enabled && pc.template.isSome
    if enabled_channels.isEmpty then
      ⟨true, 0, [OrchError.noChannelsEnabled], []⟩
    else
      match env.customer with
      | none => ⟨false, 0, [OrchError.customerNotFound], []⟩
      | some customer =>
        let enriched_context := _enrich_context_minimal payload.context customer
        let validation_result := _validate_template_variables enabled_channels enriched_context
        if ¬ validation_result.valid then
          ⟨false, 0, [OrchError.missingVariables validation_result.missing_variables], []⟩
        else
          let channels_to_notify :=
            _resolve_channels enabled_channels env.preferences customer env.disabled_channels
          if channels_to_notify.isEmpty then
            ⟨true, 0, [OrchError.noValidChannels], []⟩
          else
            let queued := channels_to_notify.map fun e =>
              match e.1.template with
              | some t =>
                (⟨e.1.channel, e.2,
                  t.subject.map (fun s => TemplateService.render s enriched_context),
                  TemplateService.render t.body enriched_context⟩ : QueuedNotification)
              | none =>
                -- unreachable: the `enabled_channels` filter keeps only
                -- configs with a template (the source would raise here)
                (⟨e.1.channel, e.2, none, []⟩ : QueuedNotification)
            ⟨true, queued.length, [], queued⟩

end OrchestrationEngine

namespace TemplateService

theorem tokenizeF_nil (fuel : Nat) : tokenizeF fuel [] = [] := by
  cases fuel <;> rfl

theorem length_dropWhile_le (p : Char → Bool) :
    ∀ (l : List Char), (l.dropWhile p).length ≤ l.length := by
  intro l
  induction l with
  | nil => simp
  | cons a l ih =>
    rw [List.dropWhile_cons]
    split
    · exact Nat.le_trans ih (by simp)
    · simp

theorem tokenizeF_eq_of_le :
    ∀ (f1 : Nat) (s : List Char), s.length ≤ f1 →
      ∀ (f2 : Nat), s.length ≤ f2 → tokenizeF f1 s = tokenizeF f2 s := by
  intro f1
  induction f1 with
  | zero =>
    intro s hs f2 _
    have hnil : s = [] := List.length_eq_zero.mp (Nat.le_zero.mp hs)
    subst hnil
    simp [tokenizeF_nil]
  | succ f ih =>
    intro s hs f2 h2
    match s, f2 with
    | [], f2 => simp [tokenizeF_nil]
    | [c1], 0 => simp at h2
    | [c1], f2 + 1 => rfl
    | c1 :: c2 :: rest, 0 => simp at h2
    | c1 :: c2 :: rest, f2 + 1 =>
      have hr : rest.length + 2 ≤ f + 1 := by simpa using hs
      have hr2 : rest.length + 2 ≤ f2 + 1 := by simpa using h2
      simp only [tokenizeF]
      split
      · split
        · congr 1
          have hd : (rest.dropWhile isVarChar).length ≤ rest.length :=
            length_dropWhile_le isVarChar rest
          have h1 : ((rest.dropWhile isVarChar).drop 2).length ≤ f := by
            have := List.length_drop 2 (rest.dropWhile isVarChar)
            omega
          have h2' : ((rest.dropWhile isVarChar).drop 2).length ≤ f2 := by
            have := List.length_drop 2 (rest.dropWhile isVarChar)
            omega
          exact ih _ h1 f2 h2'
        · congr 1
          exact ih (c2 :: rest) (by simpa using hr) f2 (by simpa using hr2)
      · congr 1
        exact ih (c2 :: rest) (by simpa using hr) f2 (by simpa using hr2)

theorem tokenizeF_eq_tokenize (fuel : Nat) (s : List Char) (h : s.length ≤ fuel) :
    tokenizeF fuel s = tokenize s :=
  tokenizeF_eq_of_le fuel s h s.length (Nat.le_refl _)

/-- A character other than `{` at the head of the scan is emitted as a
literal and the scan advances one character. -/
theorem tokenize_cons_of_ne (c : Char) (s : List Char) (hc : c ≠ '{') :
    tokenize (c :: s) = Tok.lit c :: tokenize s := by
  match s with
  | [] => simp [tokenize, tokenizeF]
  | c2 :: rest =>
    show tokenizeF (rest.length + 2) _ = _
    simp only [tokenizeF]
    rw [if_neg (by simp [hc])]
    rfl

theorem takeWhile_append_all {p : Char → Bool} :
    ∀ (n : List Char), (∀ c ∈ n, p c = true) → ∀ (d : Char), p d = false →
      ∀ (l : List Char),
        (n ++ d :: l).takeWhile p = n ∧ (n ++ d :: l).dropWhile p = d :: l := by
  intro n
  induction n with
  | nil =>
    intro _ d hd l
    simp [List.takeWhile_cons, List.dropWhile_cons, hd]
  | cons a as ih =>
    intro h d hd l
    have ha : p a = true := h a (by simp)
    have hrest := ih (fun c hc => h c (by simp [hc])) d hd l
    simp [List.takeWhile_cons, List.dropWhile_cons, ha, hrest.1, hrest.2]

/-- A maximal placeholder `{{name}}` at the head of the scan is matched:
the captured name is tokenized as a variable and the scan resumes after
the closing braces. -/
theorem tokenize_placeholder (name post : List Char) (hn : name ≠ [])
    (hvc : ∀ c ∈ name, isVarChar c = true) :
    tokenize ('{' :: '{' :: (name ++ '}' :: '}' :: post)) =
      Tok.var name :: tokenize post := by
  have hbrace : isVarChar '}' = false := by decide
  have htw := takeWhile_append_all name hvc '}' hbrace ('}' :: post)
  show tokenizeF ((name ++ '}' :: '}' :: post).length + 2) _ = _
  simp only [tokenizeF]
  rw [if_pos (by simp)]
  simp only [htw.1, htw.2]
  rw [if_pos ⟨hn, rfl⟩]
  simp only [List.drop_succ_cons, List.drop_zero]
  congr 1
  apply tokenizeF_eq_tokenize
  simp [List.length_append]
  omega

/-- Rendering of a template that starts with brace-free literal text
followed by one placeholder: the literal text is copied, the placeholder
is substituted or echoed according to the normalized context lookup, and
rendering continues on the remainder. -/
theorem render_placeholder_split
    (context : List (List Char × List Char)) (pre name post : List Char)
    (hpre : ∀ c ∈ pre, c ≠ '{') (hn : name ≠ [])
    (hvc : ∀ c ∈ name, isVarChar c = true) :
    render (pre ++ '{' :: '{' :: (name ++ '}' :: '}' :: post)) context =
      pre ++ (match lookupLast (normCtx context) (normalize name) with
        | some v => v
        | none => '{' :: '{' :: (name ++ ['}', '}'])) ++ render post context := by
  induction pre with
  | nil =>
    simp only [List.nil_append, render]
    rw [tokenize_placeholder name post hn hvc]
    simp [List.flatMap_cons]
  | cons c cs ih =>
    have hc : c ≠ '{' := hpre c (by simp)
    simp only [List.cons_append]
    rw [render, tokenize_cons_of_ne c _ hc]
    simp only [List.flatMap_cons]
    have := ih (fun x hx => hpre x (by simp [hx]))
    rw [render] at this
    simp [this]

/-- C6: `render` replaces every `{{name}}` placeholder (nonempty run of
non-brace non-whitespace characters between double braces) whose
normalized name equals a normalized context key by that key's value, and
leaves a placeholder with no matching context key verbatim; stated for a
placeholder preceded by brace-free literal text and followed by an
arbitrary remainder, whose rendering continues recursively. -/
theorem claimC6_render_placeholder_semantics
    (context : List (List Char × List Char)) (pre name post : List Char)
    (hpre : ∀ c ∈ pre, c ≠ '{') (hn : name ≠ [])
    (hvc : ∀ c ∈ name, isVarChar c = true) :
    render (pre ++ '{' :: '{' :: (name ++ '}' :: '}' :: post)) context =
      pre ++ (match lookupLast (normCtx context) (normalize name) with
        | some v => v
        | none => '{' :: '{' :: (name ++ ['}', '}'])) ++ render post context :=
  render_placeholder_split context pre name post hpre hn hvc

/-- C6 witness: `Render("\x7b\x7bUnknown\x7d\x7d world", \x7b\x7d)` leaves the
unmatched placeholder verbatim. -/
theorem claimC6_witness :
    render ('{' :: '{' :: ("Unknown".data ++ '}' :: '}' :: " world".data)) [] =
      '{' :: '{' :: ("Unknown".data ++ '}' :: '}' :: " world".data) := by
  have h := claimC6_render_placeholder_semantics [] [] "Unknown".data " world".data
    (by simp) (by decide) (by decide)
  have hrest : render " world".data [] = " world".data := by decide
  simpa [hrest] using h

/-- C7 counterexample: `A` and `a` normalize identically, yet rendering
the placeholder made from each against the empty context yields different
outputs (the unmatched placeholder is echoed with its original casing),
so case/accent variants of a placeholder name do not always render
identically. -/
theorem claimC7_counterexample :
    normalize ['A'] = normalize ['a'] ∧
      render ['{', '{', 'A', '}', '}'] [] ≠ render ['{', '{', 'a', '}', '}'] [] := by
  decide

/-- C7 (amended): normalization-equivalence holds for context keys
unconditionally — contexts with equal normalized key/value maps render
every template identically — and holds for a placeholder name exactly when
its normalized name has a matching context key; an unmatched placeholder
is echoed verbatim and so distinct casings of it produce distinct output. -/
theorem claimC7_amended
    (ctx1 ctx2 : List (List Char × List Char)) (tpl pre n1 n2 post : List Char)
    (hctx : normCtx ctx1 = normCtx ctx2)
    (hpre : ∀ c ∈ pre, c ≠ '{')
    (h1 : n1 ≠ []) (h2 : n2 ≠ [])
    (hv1 : ∀ c ∈ n1, isVarChar c = true) (hv2 : ∀ c ∈ n2, isVarChar c = true)
    (hnorm : normalize n1 = normalize n2)
    (hmatch : (lookupLast (normCtx ctx1) (normalize n1)).isSome = true) :
    render tpl ctx1 = render tpl ctx2 ∧
      render (pre ++ '{' :: '{' :: (n1 ++ '}' :: '}' :: post)) ctx1 =
        render (pre ++ '{' :: '{' :: (n2 ++ '}' :: '}' :: post)) ctx1 := by
  constructor
  · simp only [render, hctx]
  · obtain ⟨v, hv⟩ := Option.isSome_iff_exists.mp hmatch
    rw [render_placeholder_split ctx1 pre n1 post hpre h1 hv1,
      render_placeholder_split ctx1 pre n2 post hpre h2 hv2]
    rw [← hnorm, hv]

/-- C7 witness: the amended equivalence at the spec's example — context
keys `nombre` and `Nómbre` are interchangeable, and the matched
placeholder `Nombre` may be respelled `NOMBRE` without changing the
rendered output `Hola Ana`. -/
theorem claimC7_witness :
    normCtx [("nombre".data, "Ana".data)] = normCtx [("Nómbre".data, "Ana".data)] ∧
      render ("Hola ".data ++ '{' :: '{' :: ("Nombre".data ++ '}' :: '}' :: []))
          [("nombre".data, "Ana".data)] = "Hola Ana".data ∧
      render ("Hola ".data ++ '{' :: '{' :: ("Nombre".data ++ '}' :: '}' :: []))
          [("nombre".data, "Ana".data)] =
        render ("Hola ".data ++ '{' :: '{' :: ("Nombre".data ++ '}' :: '}' :: []))
          [("Nómbre".data, "Ana".data)] ∧
      render ("Hola ".data ++ '{' :: '{' :: ("Nombre".data ++ '}' :: '}' :: []))
          [("nombre".data, "Ana".data)] =
        render ("Hola ".data ++ '{' :: '{' :: ("NOMBRE".data ++ '}' :: '}' :: []))
          [("nombre".data, "Ana".data)] := by
  have h := claimC7_amended [("nombre".data, "Ana".data)] [("Nómbre".data, "Ana".data)]
    ("Hola ".data ++ '{' :: '{' :: ("Nombre".data ++ '}' :: '}' :: []))
    "Hola ".data "Nombre".data "NOMBRE".data []
    (by decide) (by decide) (by decide) (by decide) (by decide) (by decide)
    (by decide) (by decide)
  exact ⟨by decide, by decide, h.1, h.2⟩

end TemplateService

/-- C9: executing the send task on a record whose status is already sent
or delivered is a no-op skip — the adapter is never invoked and the record
is returned unchanged. -/
theorem claimC9_redelivery_noop (env : TaskEnv) (log : LogState)
    (h : log.status = NotificationStatus.sent ∨ log.status = NotificationStatus.delivered) :
    send_notification_task env log = ⟨log, false, TaskOutcome.skipped⟩ := by
  simp [send_notification_task, h]

/-- C9 witness: a concrete already-sent record is skipped untouched. -/
theorem claimC9_witness :
    send_notification_task
        ⟨true, true, ⟨true, none⟩, none, [NotificationChannel.email], 1, 2⟩
        ⟨NotificationChannel.email, NotificationStatus.sent, 0, 3, none, none, true⟩ =
      ⟨⟨NotificationChannel.email, NotificationStatus.sent, 0, 3, none, none, true⟩,
        false, TaskOutcome.skipped⟩ :=
  claimC9_redelivery_noop
    ⟨true, true, ⟨true, none⟩, none, [NotificationChannel.email], 1, 2⟩
    ⟨NotificationChannel.email, NotificationStatus.sent, 0, 3, none, none, true⟩
    (Or.inl rfl)

/-- C1 counterexample: with the default `max_retries = 3`, a record
failing on every attempt is scheduled for retry after 60 s and then 120 s,
and the third failure transitions it to failed (invoking fallback) instead
of scheduling a retry at +240 s — so the claimed +240 s schedule after the
third failure, and the claimed transition on a fourth failure, do not
occur. -/
theorem claimC1_counterexample :
    (let env : TaskEnv := ⟨true, true, ⟨false, none⟩, none, [], 0, 0⟩
     let l0 : LogState :=
       ⟨NotificationChannel.email, NotificationStatus.queued, 0, 3, none, none, false⟩
     let r1 := send_notification_task env l0
     let r2 := send_notification_task env r1.log
     let r3 := send_notification_task env r2.log
     r1.outcome = TaskOutcome.retryScheduled 60 ∧
       r2.outcome = TaskOutcome.retryScheduled 120 ∧
       r3.log.status = NotificationStatus.failed ∧
       r3.log.retry_count = 3 ∧
       r3.outcome ≠ TaskOutcome.retryScheduled 240 ∧
       r3.outcome = TaskOutcome.failedWithFallback none) := by
  decide

/-- C1 (amended): on a transient send failure the task increments
`retry_count`; while the incremented count is still below `max_retries`
it schedules the next retry after `60 * 2 ^ (retry_count - 1)` seconds
(60 s, 120 s for the first and second failures under the default
`max_retries = 3`); the failure that brings `retry_count` up to
`max_retries` — the third under the default — transitions the record to
failed and invokes the fallback procedure. -/
theorem claimC1_amended (env : TaskEnv) (log : LogState)
    (hst : ¬ (log.status = NotificationStatus.sent ∨
      log.status = NotificationStatus.delivered))
    (hknown : env.adapter_known = true) (hconf : env.adapter_configured = true)
    (hfail : env.send_result.success = false) :
    (log.retry_count + 1 < log.max_retries →
      send_notification_task env log =
        ⟨{ log with
            retry_count := log.retry_count + 1
            error_code := env.send_result.error_code
            next_retry_delay := some (60 * 2 ^ log.retry_count) }, true,
          TaskOutcome.retryScheduled (60 * 2 ^ log.retry_count)⟩) ∧
    (log.max_retries ≤ log.retry_count + 1 →
      send_notification_task env log =
        ⟨{ log with
            retry_count := log.retry_count + 1
            error_code := env.send_result.error_code
            status := NotificationStatus.failed }, true,
          TaskOutcome.failedWithFallback
            (DispatchService.schedule_fallback env.customer env.priority_order
              log.channel env.log_id env.fresh)⟩) := by
  constructor
  · intro hlt
    have hge : ¬ log.retry_count + 1 ≥ log.max_retries := by omega
    simp [send_notification_task, hst, hknown, hconf, hfail, hge]
  · intro hge
    have hge' : log.retry_count + 1 ≥ log.max_retries := hge
    simp [send_notification_task, hst, hknown, hconf, hfail, hge']

/-- C1 witness: the amended retry schedule at a concrete first failure —
retry_count becomes 1 and the retry is scheduled 60 s out. -/
theorem claimC1_witness :
    send_notification_task ⟨true, true, ⟨false, some "E".data⟩, none, [], 5, 9⟩
        ⟨NotificationChannel.email, NotificationStatus.queued, 0, 3, none, none, false⟩ =
      ⟨⟨NotificationChannel.email, NotificationStatus.queued, 1, 3, some 60,
          some "E".data, false⟩, true, TaskOutcome.retryScheduled 60⟩ := by
  have h := (claimC1_amended ⟨true, true, ⟨false, some "E".data⟩, none, [], 5, 9⟩
    ⟨NotificationChannel.email, NotificationStatus.queued, 0, 3, none, none, false⟩
    (by decide) (by decide) (by decide) (by decide)).1 (by decide)
  simpa using h

theorem findIdx?_beq_of_nodup :
    ∀ (po : List NotificationChannel), po.Nodup →
      ∀ (i : Nat) (ch : NotificationChannel), po.get? i = some ch →
        ∀ (s : Nat), po.findIdx? (fun c => c == ch) s = some (i + s) := by
  intro po
  induction po with
  | nil =>
    intro _ i ch hget
    simp at hget
  | cons a tl ih =>
    intro hnd i ch hget s
    rw [List.findIdx?_cons]
    match i with
    | 0 =>
      have ha : a = ch := by simpa using hget
      subst ha
      simp
    | j + 1 =>
      have hget' : tl.get? j = some ch := by simpa using hget
      have hmem : ch ∈ tl := List.get?_mem hget'
      have hnotin : a ∉ tl := (List.nodup_cons.mp hnd).1
      have hne : a ≠ ch := fun h => hnotin (h ▸ hmem)
      have hbeq : (a == ch) = false := by simp [hne]
      rw [hbeq]
      simp only [Bool.false_eq_true, if_false]
      rw [ih (List.nodup_cons.mp hnd).2 j ch hget' (s + 1)]
      congr 1
      omega

theorem schedule_fallbackF_spec (cust : CustomerContactInfo)
    (po : List NotificationChannel) (hnd : po.Nodup) :
    ∀ (fuel i : Nat) (ch : NotificationChannel) (lid fr : Nat),
      po.length - i ≤ fuel → po.get? i = some ch →
      (DispatchService.schedule_fallbackF (some cust) po fuel ch lid fr).map
          (fun r => r.channel) =
        (po.drop (i + 1)).find? (fun c =>
          decide (cust.get_recipient_for_channel c ≠ [])) ∧
      ∀ r, DispatchService.schedule_fallbackF (some cust) po fuel ch lid fr = some r →
        r.recipient = cust.get_recipient_for_channel r.channel ∧
          r.recipient ≠ [] ∧ r.countdown = DispatchService.fallback_delay_seconds := by
  intro fuel
  induction fuel with
  | zero =>
    intro i ch lid fr hfuel hget
    have hi : i < po.length := (List.get?_eq_some.mp hget).1
    omega
  | succ fuel ih =>
    intro i ch lid fr hfuel hget
    have hi : i < po.length := (List.get?_eq_some.mp hget).1
    simp only [DispatchService.schedule_fallbackF]
    rw [findIdx?_beq_of_nodup po hnd i ch hget 0]
    simp only [Nat.add_zero]
    by_cases hlast : i ≥ po.length - 1
    · rw [if_pos hlast]
      have hdrop : po.drop (i + 1) = [] := List.drop_eq_nil_of_le (by omega)
      rw [hdrop]
      exact ⟨by simp, by intro r hr; simp at hr⟩
    · rw [if_neg hlast]
      have hlt : i + 1 < po.length := by omega
      have hget1 : po.get? (i + 1) = some po[i + 1] := by
        simp [List.get?_eq_getElem?, List.getElem?_eq_getElem hlt]
      rw [hget1]
      simp only
      have hdrop : po.drop (i + 1) = po[i + 1] :: po.drop (i + 2) :=
        List.drop_eq_getElem_cons hlt
      rw [hdrop]
      by_cases hrec : cust.get_recipient_for_channel po[i + 1] = []
      · rw [if_pos hrec]
        rw [List.find?_cons_of_neg _ (by simp [hrec])]
        exact ih (i + 1) po[i + 1] fr (fr + 1) (by omega) hget1
      · rw [if_neg hrec]
        rw [List.find?_cons_of_pos _ (by simp [hrec])]
        constructor
        · simp
        · intro r hr
          have hr' : r = ⟨po[i + 1], cust.get_recipient_for_channel po[i + 1], lid,
              DispatchService.fallback_delay_seconds⟩ :=
            (Option.some_injective _ hr).symm
          subst hr'
          exact ⟨rfl, hrec, rfl⟩

/-- C2: when a record with a duplicate-free attached priority-order list
fails terminally, `schedule_fallback` schedules at most one fallback, its
channel is the first channel strictly after the failed record's channel
(at position `i`) for which the customer resolves a nonempty recipient —
channels with no address are skipped — and no fallback is scheduled when
the failed channel is last or no later channel has an address (the
`find?` on the right is `none` exactly then); any scheduled fallback
carries that channel's resolved nonempty recipient. -/
theorem claimC2_fallback_first_resolvable_channel (cust : CustomerContactInfo)
    (po : List NotificationChannel) (i : Nat) (ch : NotificationChannel)
    (lid fr : Nat) (hnd : po.Nodup) (hget : po.get? i = some ch) :
    (DispatchService.schedule_fallback (some cust) po ch lid fr).map
        (fun r => r.channel) =
      (po.drop (i + 1)).find? (fun c =>
        decide (cust.get_recipient_for_channel c ≠ [])) ∧
    ∀ r, DispatchService.schedule_fallback (some cust) po ch lid fr = some r →
      r.recipient = cust.get_recipient_for_channel r.channel ∧ r.recipient ≠ [] := by
  have h := schedule_fallbackF_spec cust po hnd (po.length + 1) i ch lid fr
    (by omega) hget
  exact ⟨h.1, fun r hr => ⟨(h.2 r hr).1, (h.2 r hr).2.1⟩⟩

/-- C2 witness: priority `[email, whatsapp, push]`, email failed, customer
with neither whatsapp nor phone — the fallback skips whatsapp and lands on
push. -/
theorem claimC2_witness :
    (DispatchService.schedule_fallback
        (some ⟨"C9".data, "A".data, "B".data, "e@x".data, [], []⟩)
        [NotificationChannel.email, NotificationChannel.whatsapp, NotificationChannel.push]
        NotificationChannel.email 7 100).map (fun r => r.channel) =
      some NotificationChannel.push := by
  have h := claimC2_fallback_first_resolvable_channel
    ⟨"C9".data, "A".data, "B".data, "e@x".data, [], []⟩
    [NotificationChannel.email, NotificationChannel.whatsapp, NotificationChannel.push]
    0 NotificationChannel.email 7 100 (by decide) (by decide)
  rw [h.1]
  decide

/-- C3: evaluating `schedule_fallback` at priority
`[email, whatsapp, push]` with email failed (record id 7), whatsapp
unresolvable and push resolvable: the fallback is queued on push with the
fixed 600 s delay, but its `parent_log_id` is 100 — the fresh `uuid4` id
drawn by the unsaved mock record for the skipped whatsapp hop — and not 7,
the id of the persisted failed record, contradicting the claimed parent
linkage (and the `parent_log` foreign key, which no persisted row with id
100 satisfies). -/
theorem claimC3_skipped_hop_breaks_parent_linkage :
    DispatchService.schedule_fallback
        (some ⟨"C9".data, "A".data, "B".data, "e@x".data, [], []⟩)
        [NotificationChannel.email, NotificationChannel.whatsapp, NotificationChannel.push]
        NotificationChannel.email 7 100 =
      some ⟨NotificationChannel.push, "C9".data, 100, 600⟩ ∧ (100 : Nat) ≠ 7 := by
  decide

namespace OrchestrationEngine

/-- C4: for a standard event whose matched phase keeps at least one
enabled-and-templated channel and whose customer resolves, failed
template-variable validation makes `process_event` return failure with
zero notifications queued before any queue call, and the reported missing
list contains a normalized name exactly when it is the normalization of
some variable extracted from the selected templates and no enriched
context key normalizes to it — never a subset, never an extra. -/
theorem claimC4_missing_variables_exact (env : Env) (payload : EventPayload)
    (customer : CustomerContactInfo)
    (hcustom : payload.event_type ≠ "custom".data)
    (hcfg : env.config_found = true)
    (henabled : (env.phase_configs.filter fun pc => pc.enabled && pc.template.isSome) ≠ [])
    (hcust : env.customer = some customer)
    (hinvalid : (_validate_template_variables
        (env.phase_configs.filter fun pc => pc.enabled && pc.template.isSome)
        (_enrich_context_minimal payload.context customer)).valid = false) :
    process_event env payload =
      ⟨false, 0,
        [OrchError.missingVariables (_validate_template_variables
          (env.phase_configs.filter fun pc => pc.enabled && pc.template.isSome)
          (_enrich_context_minimal payload.context customer)).missing_variables], []⟩ ∧
    ∀ x, x ∈ (_validate_template_variables
        (env.phase_configs.filter fun pc => pc.enabled && pc.template.isSome)
        (_enrich_context_minimal payload.context customer)).missing_variables ↔
      ((∃ n, n ∈ all_required_variables
          (env.phase_configs.filter fun pc => pc.enabled && pc.template.isSome) ∧
          normalize n = x) ∧
        ¬ ∃ p, p ∈ _enrich_context_minimal payload.context customer ∧
          normalize p.1 = x) := by
  constructor
  · simp [process_event, hcustom, hcfg, hcust, hinvalid, List.isEmpty_iff, henabled]
  · intro x
    simp only [_validate_template_variables, List.mem_filter, List.mem_dedup,
      List.mem_map, decide_eq_true_eq, not_exists]

/-- C4 witness: one enabled email channel whose template references
`Placa`, empty caller context — validation fails fast with exactly
`placa` missing and nothing queued. -/
theorem claimC4_witness :
    process_event
        ⟨true, [⟨NotificationChannel.email, true,
          some ⟨none, '{' :: '{' :: ("Placa".data ++ '}' :: '}' :: [])⟩⟩],
          some ⟨"C1".data, "Ana".data, "P".data, "a@b".data, [], []⟩, [], []⟩
        ⟨"evt".data, []⟩ =
      ⟨false, 0, [OrchError.missingVariables ["placa".data]], []⟩ := by
  have h := claimC4_missing_variables_exact
    ⟨true, [⟨NotificationChannel.email, true,
      some ⟨none, '{' :: '{' :: ("Placa".data ++ '}' :: '}' :: [])⟩⟩],
      some ⟨"C1".data, "Ana".data, "P".data, "a@b".data, [], []⟩, [], []⟩
    ⟨"evt".data, []⟩
    ⟨"C1".data, "Ana".data, "P".data, "a@b".data, [], []⟩
    (by decide) (by decide) (by decide) (by decide) (by decide)
  rw [h.1]
  decide

/-- C5 counterexample: a custom event for a customer with neither email
nor whatsapp/phone contact queues nothing, yet `process_event` reports
failure, not the claimed success-with-zero-queued. -/
theorem claimC5_counterexample :
    (process_event
        ⟨false, [], some ⟨"C1".data, "Ana".data, "P".data, [], [], []⟩, [], []⟩
        ⟨"custom".data,
          [("subject".data, "s".data), ("body".data, "b".data)]⟩).success = false ∧
    (process_event
        ⟨false, [], some ⟨"C1".data, "Ana".data, "P".data, [], [], []⟩, [], []⟩
        ⟨"custom".data,
          [("subject".data, "s".data), ("body".data, "b".data)]⟩).notifications_queued = 0 ∧
    (process_event
        ⟨false, [], some ⟨"C1".data, "Ana".data, "P".data, [], [], []⟩, [], []⟩
        ⟨"custom".data,
          [("subject".data, "s".data), ("body".data, "b".data)]⟩).errors =
      [OrchError.noCustomContact] := by
  decide

/-- C5 (amended): zero eligible channels is reported as success with zero
queued for standard events — both when the phase keeps no
enabled-and-templated channel and when the resolver returns no channel —
while a custom event whose customer has neither email nor whatsapp/phone
contact is reported as a failure with zero queued. -/
theorem claimC5_zero_channels_outcomes :
    (∀ (env : Env) (payload : EventPayload),
      payload.event_type ≠ "custom".data → env.config_found = true →
      (env.phase_configs.filter fun pc => pc.enabled && pc.template.isSome) = [] →
      process_event env payload = ⟨true, 0, [OrchError.noChannelsEnabled], []⟩) ∧
    (∀ (env : Env) (payload : EventPayload) (customer : CustomerContactInfo),
      payload.event_type ≠ "custom".data → env.config_found = true →
      (env.phase_configs.filter fun pc => pc.enabled && pc.template.isSome) ≠ [] →
      env.customer = some customer →
      (_validate_template_variables
        (env.phase_configs.filter fun pc => pc.enabled && pc.template.isSome)
        (_enrich_context_minimal payload.context customer)).valid = true →
      _resolve_channels
        (env.phase_configs.filter fun pc => pc.enabled && pc.template.isSome)
        env.preferences customer env.disabled_channels = [] →
      process_event env payload = ⟨true, 0, [OrchError.noValidChannels], []⟩) ∧
    (∀ (env : Env) (payload : EventPayload) (customer : CustomerContactInfo),
      payload.event_type = "custom".data →
      "subject".data ∈ payload.context.map Prod.fst →
      "body".data ∈ payload.context.map Prod.fst →
      env.customer = some customer →
      customer.email = [] → customer.whatsapp = [] → customer.phone = [] →
      process_event env payload = ⟨false, 0, [OrchError.noCustomContact], []⟩) := by
  refine ⟨?_, ?_, ?_⟩
  · intro env payload hcustom hcfg hempty
    simp [process_event, hcustom, hcfg, List.isEmpty_iff, hempty]
  · intro env payload customer hcustom hcfg henabled hcust hvalid hresolve
    simp [process_event, hcustom, hcfg, List.isEmpty_iff, henabled, hcust,
      hvalid, hresolve]
  · intro env payload customer hcustom hsubj hbody hcust hemail hwa hphone
    simp [process_event, _process_custom_event, hcustom, hsubj, hbody, hcust,
      CustomerContactInfo.get_recipient_for_channel, hemail, hwa, hphone]

/-- C5 witness: the amended outcomes at concrete inputs — a standard event
whose phase keeps no enabled channel succeeds with zero queued, and the
counterexample's custom event fails with zero queued. -/
theorem claimC5_witness :
    process_event
        ⟨true, [⟨NotificationChannel.email, false, none⟩],
          some ⟨"C1".data, "Ana".data, "P".data, "a@b".data, [], []⟩, [], []⟩
        ⟨"evt".data, []⟩ =
      ⟨true, 0, [OrchError.noChannelsEnabled], []⟩ ∧
    process_event
        ⟨false, [], some ⟨"C1".data, "Ana".data, "P".data, [], [], []⟩, [], []⟩
        ⟨"custom".data, [("subject".data, "s".data), ("body".data, "b".data)]⟩ =
      ⟨false, 0, [OrchError.noCustomContact], []⟩ := by
  constructor
  · exact claimC5_zero_channels_outcomes.1
      ⟨true, [⟨NotificationChannel.email, false, none⟩],
        some ⟨"C1".data, "Ana".data, "P".data, "a@b".data, [], []⟩, [], []⟩
      ⟨"evt".data, []⟩ (by decide) (by decide) (by decide)
  · exact claimC5_zero_channels_outcomes.2.2
      ⟨false, [], some ⟨"C1".data, "Ana".data, "P".data, [], [], []⟩, [], []⟩
      ⟨"custom".data, [("subject".data, "s".data), ("body".data, "b".data)]⟩
      ⟨"C1".data, "Ana".data, "P".data, [], [], []⟩
      (by decide) (by decide) (by decide) (by decide) (by decide) (by decide)
      (by decide)

theorem dictInsert_channel_eq_key (m : List (NotificationChannel × PhaseChannelConfig))
    (hm : ∀ kv ∈ m, kv.2.channel = kv.1) (c : PhaseChannelConfig) :
    ∀ kv ∈ dictInsert m c.channel c, kv.2.channel = kv.1 := by
  intro kv hkv
  unfold dictInsert at hkv
  split at hkv
  · obtain ⟨p, hp, hpe⟩ := List.mem_map.mp hkv
    by_cases hpk : p.1 = c.channel
    · rw [if_pos hpk] at hpe
      subst hpe
      rfl
    · rw [if_neg hpk] at hpe
      subst hpe
      exact hm p hp
  · rcases List.mem_append.mp hkv with h | h
    · exact hm kv h
    · have : kv = (c.channel, c) := by simpa using h
      subst this
      rfl

theorem buildChannelMap_channel_eq_key (enabled_configs : List PhaseChannelConfig) :
    ∀ kv ∈ buildChannelMap enabled_configs, kv.2.channel = kv.1 := by
  have haux : ∀ (cfgs : List PhaseChannelConfig)
      (acc : List (NotificationChannel × PhaseChannelConfig)),
      (∀ kv ∈ acc, kv.2.channel = kv.1) →
      ∀ kv ∈ cfgs.foldl (fun m c => dictInsert m c.channel c) acc,
        kv.2.channel = kv.1 := by
    intro cfgs
    induction cfgs with
    | nil =>
      intro acc hacc
      simpa using hacc
    | cons c rest ih =>
      intro acc hacc
      simp only [List.foldl_cons]
      exact ih (dictInsert acc c.channel c) (dictInsert_channel_eq_key acc hacc c)
  exact haux enabled_configs [] (by simp)

theorem dictFind_channel_eq (m : List (NotificationChannel × PhaseChannelConfig))
    (hinv : ∀ kv ∈ m, kv.2.channel = kv.1) (ch : NotificationChannel)
    (config : PhaseChannelConfig) (h : dictFind m ch = some config) :
    config.channel = ch := by
  unfold dictFind at h
  obtain ⟨p, hfind, hp⟩ := Option.map_eq_some'.mp h
  have hmem : p ∈ m := List.mem_of_find?_eq_some hfind
  have hpred := List.find?_some hfind
  have hkey : p.1 = ch := by simpa using hpred
  rw [← hp, hinv p hmem, hkey]

theorem resolveStep1_spec (m : List (NotificationChannel × PhaseChannelConfig))
    (cust : CustomerContactInfo) (hinv : ∀ kv ∈ m, kv.2.channel = kv.1) :
    ∀ (prefs : List CustomerChannelPreference) (used : List NotificationChannel),
      (∀ x ∈ (resolveStep1 m cust prefs used).1.map (fun e => e.1.channel),
        x ∈ (resolveStep1 m cust prefs used).2) ∧
      (∀ x ∈ used, x ∈ (resolveStep1 m cust prefs used).2) ∧
      ((resolveStep1 m cust prefs used).1.map (fun e => e.1.channel)).Nodup ∧
      (∀ x ∈ (resolveStep1 m cust prefs used).1.map (fun e => e.1.channel),
        x ∉ used) ∧
      (∀ e ∈ (resolveStep1 m cust prefs used).1,
        e.2 = cust.get_recipient_for_channel e.1.channel ∧ e.2 ≠ []) ∧
      ((resolveStep1 m cust prefs used).1.map (fun e => e.1.channel)).Sublist
        (prefs.map (fun p => p.channel)) := by
  intro prefs
  induction prefs with
  | nil =>
    intro used
    simp [resolveStep1]
  | cons pref rest ih =>
    intro used
    cases hd : dictFind m pref.channel with
    | none =>
      simp only [resolveStep1, hd]
      obtain ⟨ih1, ih2, ih3, ih4, ih5, ih6⟩ := ih used
      exact ⟨ih1, ih2, ih3, ih4, ih5, ih6.trans (List.sublist_cons_self _ _)⟩
    | some config =>
      have hchan : config.channel = pref.channel := dictFind_channel_eq m hinv _ _ hd
      by_cases hused : pref.channel ∈ used
      · simp only [resolveStep1, hd, if_pos hused]
        obtain ⟨ih1, ih2, ih3, ih4, ih5, ih6⟩ := ih used
        exact ⟨ih1, ih2, ih3, ih4, ih5, ih6.trans (List.sublist_cons_self _ _)⟩
      · by_cases hrec : cust.get_recipient_for_channel pref.channel ≠ []
        · simp only [resolveStep1, hd, if_neg hused, if_pos hrec]
          obtain ⟨ih1, ih2, ih3, ih4, ih5, ih6⟩ := ih (pref.channel :: used)
          have hnotin : pref.channel ∉
              (resolveStep1 m cust rest (pref.channel :: used)).1.map
                (fun e => e.1.channel) :=
            fun hmem => ih4 _ hmem (by simp)
          refine ⟨?_, ?_, ?_, ?_, ?_, ?_⟩
          · intro x hx
            simp only [List.map_cons, List.mem_cons, hchan] at hx
            rcases hx with hx | hx
            · subst hx
              exact ih2 _ (by simp)
            · exact ih1 x hx
          · intro x hx
            exact ih2 x (by simp [hx])
          · simp only [List.map_cons, hchan]
            exact List.nodup_cons.mpr ⟨hnotin, ih3⟩
          · intro x hx
            simp only [List.map_cons, List.mem_cons, hchan] at hx
            rcases hx with hx | hx
            · subst hx
              exact hused
            · intro hxu
              exact ih4 x hx (by simp [hxu])
          · intro e he
            rcases List.mem_cons.mp he with he | he
            · subst he
              exact ⟨by rw [hchan], hrec⟩
            · exact ih5 e he
          · simp only [List.map_cons, hchan]
            exact List.Sublist.cons₂ _ ih6
        · simp only [resolveStep1, hd, if_neg hused, if_neg hrec]
          obtain ⟨ih1, ih2, ih3, ih4, ih5, ih6⟩ := ih used
          exact ⟨ih1, ih2, ih3, ih4, ih5, ih6.trans (List.sublist_cons_self _ _)⟩

theorem resolveStep2_spec (cust : CustomerContactInfo)
    (disabled_channels : List NotificationChannel) :
    ∀ (items : List (NotificationChannel × PhaseChannelConfig)),
      (∀ kv ∈ items, kv.2.channel = kv.1) →
      ∀ (used : List NotificationChannel),
        ((resolveStep2 cust disabled_channels items used).map
          (fun e => e.1.channel)).Nodup ∧
        (∀ x ∈ (resolveStep2 cust disabled_channels items used).map
          (fun e => e.1.channel), x ∉ used) ∧
        (∀ e ∈ resolveStep2 cust disabled_channels items used,
          e.2 = cust.get_recipient_for_channel e.1.channel ∧ e.2 ≠ [] ∧
          (e.1.channel, e.1) ∈ items ∧ e.1.channel ∉ disabled_channels) := by
  intro items
  induction items with
  | nil =>
    intro _ used
    simp [resolveStep2]
  | cons kv rest ih =>
    intro hinv used
    obtain ⟨channel, config⟩ := kv
    have hchan : config.channel = channel := hinv (channel, config) (by simp)
    have hinvrest : ∀ p ∈ rest, p.2.channel = p.1 :=
      fun p hp => hinv p (by simp [hp])
    by_cases hok : channel ∉ used ∧ channel ∉ disabled_channels
    · by_cases hrec : cust.get_recipient_for_channel channel ≠ []
      · simp only [resolveStep2, if_pos hok, if_pos hrec]
        obtain ⟨ih1, ih2, ih3⟩ := ih hinvrest (channel :: used)
        have hnotin : channel ∉
            (resolveStep2 cust disabled_channels rest (channel :: used)).map
              (fun e => e.1.channel) :=
          fun hmem => ih2 _ hmem (by simp)
        refine ⟨?_, ?_, ?_⟩
        · simp only [List.map_cons, hchan]
          exact List.nodup_cons.mpr ⟨hnotin, ih1⟩
        · intro x hx
          simp only [List.map_cons, List.mem_cons, hchan] at hx
          rcases hx with hx | hx
          · subst hx
            exact hok.1
          · intro hxu
            exact ih2 x hx (by simp [hxu])
        · intro e he
          rcases List.mem_cons.mp he with he | he
          · subst he
            exact ⟨by rw [hchan], hrec, by simp [hchan],
              by rw [hchan]; exact hok.2⟩
          · obtain ⟨h1, h2, h3, h4⟩ := ih3 e he
            exact ⟨h1, h2, by simp [h3], h4⟩
      · simp only [resolveStep2, if_pos hok, if_neg hrec]
        obtain ⟨ih1, ih2, ih3⟩ := ih hinvrest used
        refine ⟨ih1, ih2, ?_⟩
        intro e he
        obtain ⟨h1, h2, h3, h4⟩ := ih3 e he
        exact ⟨h1, h2, by simp [h3], h4⟩
    · simp only [resolveStep2, if_neg hok]
      obtain ⟨ih1, ih2, ih3⟩ := ih hinvrest used
      refine ⟨ih1, ih2, ?_⟩
      intro e he
      obtain ⟨h1, h2, h3, h4⟩ := ih3 e he
      exact ⟨h1, h2, by simp [h3], h4⟩

/-- C8: the resolver's output lists each channel at most once, every
entry carries the customer's nonempty resolved recipient for its channel,
and the output decomposes into a first block whose channels follow the
preference list's order (ascending priority, as the preferences are
handed over priority-sorted) followed by a block of remaining configured
channels that are not explicitly disabled and do not repeat a
preference-block channel. -/
theorem claimC8_resolver_invariants (enabled_configs : List PhaseChannelConfig)
    (preferences : List CustomerChannelPreference)
    (customer : CustomerContactInfo)
    (disabled_channels : List NotificationChannel) :
    ((_resolve_channels enabled_configs preferences customer
        disabled_channels).map (fun e => e.1.channel)).Nodup ∧
    (∀ e ∈ _resolve_channels enabled_configs preferences customer
        disabled_channels,
      e.2 = customer.get_recipient_for_channel e.1.channel ∧ e.2 ≠ []) ∧
    ∃ r1 r2,
      _resolve_channels enabled_configs preferences customer disabled_channels =
        r1 ++ r2 ∧
      (r1.map (fun e => e.1.channel)).Sublist
        (preferences.map (fun p => p.channel)) ∧
      ∀ e ∈ r2, (e.1.channel, e.1) ∈ buildChannelMap enabled_configs ∧
        e.1.channel ∉ disabled_channels ∧
        e.1.channel ∉ r1.map (fun e => e.1.channel) := by
  have hinv := buildChannelMap_channel_eq_key enabled_configs
  obtain ⟨s11, _, s13, _, s15, s16⟩ :=
    resolveStep1_spec (buildChannelMap enabled_configs) customer hinv preferences []
  obtain ⟨s21, s22, s23⟩ :=
    resolveStep2_spec customer disabled_channels (buildChannelMap enabled_configs)
      hinv (resolveStep1 (buildChannelMap enabled_configs) customer preferences []).2
  have hch2 : ∀ e ∈ resolveStep2 customer disabled_channels
      (buildChannelMap enabled_configs)
      (resolveStep1 (buildChannelMap enabled_configs) customer preferences []).2,
      e.1.channel ∉ (resolveStep1 (buildChannelMap enabled_configs) customer
        preferences []).1.map (fun x => x.1.channel) := by
    intro e he hmem
    exact s22 e.1.channel (List.mem_map.mpr ⟨e, he, rfl⟩) (s11 _ hmem)
  refine ⟨?_, ?_, ?_⟩
  · simp only [_resolve_channels, List.map_append]
    refine List.nodup_append.mpr ⟨s13, s21, ?_⟩
    intro a ha1 ha2
    exact s22 a ha2 (s11 a ha1)
  · intro e he
    simp only [_resolve_channels] at he
    rcases List.mem_append.mp he with he | he
    · exact s15 e he
    · obtain ⟨h1, h2, _, _⟩ := s23 e he
      exact ⟨h1, h2⟩
  · refine ⟨(resolveStep1 (buildChannelMap enabled_configs) customer
        preferences []).1,
      resolveStep2 customer disabled_channels (buildChannelMap enabled_configs)
        (resolveStep1 (buildChannelMap enabled_configs) customer preferences []).2,
      rfl, s16, ?_⟩
    intro e he
    obtain ⟨_, _, h3, h4⟩ := s23 e he
    exact ⟨h3, h4, hch2 e he⟩

/-- C8 witness: the resolver invariants instantiated at a concrete
configuration (email+whatsapp configured, whatsapp preferred, push
disabled). -/
theorem claimC8_witness :
    ((_resolve_channels
        [⟨NotificationChannel.email, true, none⟩,
          ⟨NotificationChannel.whatsapp, true, none⟩]
        [⟨NotificationChannel.whatsapp, 1⟩]
        ⟨"C1".data, "Ana".data, "P".data, "a@b".data, "099".data, []⟩
        [NotificationChannel.push]).map (fun e => e.1.channel)).Nodup ∧
    (∀ e ∈ _resolve_channels
        [⟨NotificationChannel.email, true, none⟩,
          ⟨NotificationChannel.whatsapp, true, none⟩]
        [⟨NotificationChannel.whatsapp, 1⟩]
        ⟨"C1".data, "Ana".data, "P".data, "a@b".data, "099".data, []⟩
        [NotificationChannel.push],
      e.2 = CustomerContactInfo.get_recipient_for_channel
        ⟨"C1".data, "Ana".data, "P".data, "a@b".data, "099".data, []⟩
        e.1.channel ∧ e.2 ≠ []) ∧
    ∃ r1 r2,
      _resolve_channels
        [⟨NotificationChannel.email, true, none⟩,
          ⟨NotificationChannel.whatsapp, true, none⟩]
        [⟨NotificationChannel.whatsapp, 1⟩]
        ⟨"C1".data, "Ana".data, "P".data, "a@b".data, "099".data, []⟩
        [NotificationChannel.push] = r1 ++ r2 ∧
      (r1.map (fun e => e.1.channel)).Sublist
        (([⟨NotificationChannel.whatsapp, 1⟩] :
          List CustomerChannelPreference).map (fun p => p.channel)) ∧
      ∀ e ∈ r2, (e.1.channel, e.1) ∈ buildChannelMap
          [⟨NotificationChannel.email, true, none⟩,
            ⟨NotificationChannel.whatsapp, true, none⟩] ∧
        e.1.channel ∉ [NotificationChannel.push] ∧
        e.1.channel ∉ r1.map (fun e => e.1.channel) :=
  claimC8_resolver_invariants
    [⟨NotificationChannel.email, true, none⟩,
      ⟨NotificationChannel.whatsapp, true, none⟩]
    [⟨NotificationChannel.whatsapp, 1⟩]
    ⟨"C1".data, "Ana".data, "P".data, "a@b".data, "099".data, []⟩
    [NotificationChannel.push]

theorem lookupLast_isSome_of_key {α : Type} :
    ∀ (m : List (List Char × α)) (k : List Char),
      k ∈ m.map Prod.fst → (TemplateService.lookupLast m k).isSome = true := by
  intro m
  induction m with
  | nil =>
    intro k hk
    simp at hk
  | cons p rest ih =>
    intro k hk
    show (match TemplateService.lookupLast rest k with
      | some v => some v
      | none => if p.1 = k then some p.2 else none).isSome = true
    cases hrest : TemplateService.lookupLast rest k with
    | some v => rfl
    | none =>
      rcases List.mem_map.mp hk with ⟨q, hq, hqk⟩
      rcases List.mem_cons.mp hq with hq | hq
      · have hpk : p.1 = k := by rw [← hq]; exact hqk
        simp [hpk]
      · have := ih k (List.mem_map.mpr ⟨q, hq, hqk⟩)
        rw [hrest] at this
        simp at this

/-- C10: the engine's `_normalize` and the template service's
`_normalize` compute the same function, and when template-variable
validation reports valid, every placeholder occurring in any selected
template's body or subject resolves during rendering — the normalized
lookup `render` performs on the normalized context is `isSome`, so no
placeholder of those templates is left un-substituted. -/
theorem claimC10_validation_guarantees_substitution
    (enabled_channels : List PhaseChannelConfig)
    (enriched_context : List (List Char × List Char))
    (hvalid : (_validate_template_variables enabled_channels
      enriched_context).valid = true) :
    (∀ s, normalize s = TemplateService.normalize s) ∧
    ∀ pc ∈ enabled_channels, ∀ t, pc.template = some t →
      (∀ n, TemplateService.Tok.var n ∈ TemplateService.tokenize t.body →
        (TemplateService.lookupLast (TemplateService.normCtx enriched_context)
          (TemplateService.normalize n)).isSome = true) ∧
      (∀ s n, t.subject = some s →
        TemplateService.Tok.var n ∈ TemplateService.tokenize s →
        (TemplateService.lookupLast (TemplateService.normCtx enriched_context)
          (TemplateService.normalize n)).isSome = true) := by
  have hcover : ∀ v ∈ ((all_required_variables enabled_channels).map normalize).dedup,
      v ∈ (enriched_context.map (fun p => normalize p.1)).dedup := by
    intro v hv
    have hempty : (((all_required_variables enabled_channels).map normalize).dedup.filter
        (fun v => decide (v ∉ (enriched_context.map (fun p => normalize p.1)).dedup))) = [] := by
      have := hvalid
      simp only [_validate_template_variables, List.isEmpty_iff] at this
      exact this
    have := List.filter_eq_nil_iff.mp hempty v hv
    simpa using this
  have hkey : ∀ n, n ∈ all_required_variables enabled_channels →
      (TemplateService.lookupLast (TemplateService.normCtx enriched_context)
        (TemplateService.normalize n)).isSome = true := by
    intro n hn
    have h1 : normalize n ∈
        ((all_required_variables enabled_channels).map normalize).dedup :=
      List.mem_dedup.mpr (List.mem_map.mpr ⟨n, hn, rfl⟩)
    have h2 := hcover _ h1
    have h3 : normalize n ∈ enriched_context.map (fun p => normalize p.1) :=
      List.mem_dedup.mp h2
    apply lookupLast_isSome_of_key
    show TemplateService.normalize n ∈
      (TemplateService.normCtx enriched_context).map Prod.fst
    simp only [TemplateService.normCtx, List.map_map]
    exact h3
  refine ⟨fun _ => rfl, ?_⟩
  intro pc hpc t hpct
  constructor
  · intro n htok
    apply hkey
    have hgv : n ∈ TemplateService.get_variables t.body :=
      List.mem_dedup.mpr (List.mem_filterMap.mpr ⟨TemplateService.Tok.var n, htok, rfl⟩)
    apply List.mem_dedup.mpr
    apply List.mem_flatMap.mpr
    refine ⟨pc, hpc, ?_⟩
    rw [hpct]
    exact List.mem_append_left _ hgv
  · intro s n hsub htok
    apply hkey
    have hgv : n ∈ TemplateService.get_variables s :=
      List.mem_dedup.mpr (List.mem_filterMap.mpr ⟨TemplateService.Tok.var n, htok, rfl⟩)
    apply List.mem_dedup.mpr
    apply List.mem_flatMap.mpr
    refine ⟨pc, hpc, ?_⟩
    rw [hpct]
    refine List.mem_append_right _ ?_
    rw [hsub]
    exact hgv

/-- C10 witness: a validated body/subject pair — the `Nombre` placeholder
of the body resolves against the enriched context during rendering. -/
theorem claimC10_witness :
    (TemplateService.lookupLast
        (TemplateService.normCtx [("nombre".data, "Ana".data), ("placa".data, "X1".data)])
        (TemplateService.normalize "Nombre".data)).isSome = true :=
  ((claimC10_validation_guarantees_substitution
      [⟨NotificationChannel.email, true,
        some ⟨some ('{' :: '{' :: ("Placa".data ++ '}' :: '}' :: [])),
          "Hola ".data ++ '{' :: '{' :: ("Nombre".data ++ '}' :: '}' :: [])⟩⟩]
      [("nombre".data, "Ana".data), ("placa".data, "X1".data)]
      (by decide)).2
    ⟨NotificationChannel.email, true,
      some ⟨some ('{' :: '{' :: ("Placa".data ++ '}' :: '}' :: [])),
        "Hola ".data ++ '{' :: '{' :: ("Nombre".data ++ '}' :: '}' :: [])⟩⟩
    (by simp)
    ⟨some ('{' :: '{' :: ("Placa".data ++ '}' :: '}' :: [])),
      "Hola ".data ++ '{' :: '{' :: ("Nombre".data ++ '}' :: '}' :: [])⟩
    rfl).1 "Nombre".data (by decide)

end OrchestrationEngine
